import Mathlib

/-!
Shallow embedding of `cli/pkg/knative/commands/deployer_create.go` from the
riff repository, together with a spec-derived model of the `race` package
(whose source is consumed here only through its caller).

External collaborators (the `cli`, `validation`, `k8s`, `parsers` packages and
the Kubernetes client) are represented by opaque parameter records: their
observable calls and results are part of the execution trace, their internals
are not modelled.  Everything taken from the Go source keeps its structure and
names; the few constants and wrappers whose defining package is not part of
the sources are marked `Modelled from the spec`.
-/

namespace Riff

/-- Go `error` values as they matter to this command: the `context.DeadlineExceeded`
sentinel (compared by identity in the source), errors wrapped by `cli.SilenceError`,
and any other error, identified by its message. -/
inductive GoError where
  | deadlineExceeded : GoError
  | silenced : GoError → GoError
  | other : String → GoError
  deriving DecidableEq, Repr

/-- Modelled from the spec: a "silenced" error is an error value marked so that
generic top-level error rendering suppresses it (`cli.SilenceError` wraps the
error; the wrapper's source is outside the given sources). -/
def GoError.isSilent : GoError → Bool
  | .silenced _ => true
  | _ => false

/-- Modelled from the spec: generic top-level error rendering displays an error
unless it carries the silenced marking. -/
def topLevelRenders (e : GoError) : Bool :=
  !e.isSilent

/-- Mirror of `options.ResourceOptions` (namespace and name of the resource). -/
structure ResourceOptions where
  ns : String
  name : String
  deriving DecidableEq, Repr

/-- Mirror of the `DeployerCreateOptions` struct in `deployer_create.go`. -/
structure DeployerCreateOptions where
  resourceOptions : ResourceOptions
  image : String
  applicationRef : String
  containerRef : String
  functionRef : String
  ingressPolicy : String
  targetPort : Int
  containerConcurrency : Int
  env : List String
  envFrom : List String
  limitCPU : String
  limitMemory : String
  maxScale : Int
  minScale : Int
  tail : Bool
  waitTimeout : String
  dryRun : Bool
  deriving DecidableEq, Repr

/-- Field promotion of the embedded `ResourceOptions.Name`. -/
def DeployerCreateOptions.name (opts : DeployerCreateOptions) : String :=
  opts.resourceOptions.name

/-- Field promotion of the embedded `ResourceOptions.Namespace`. -/
def DeployerCreateOptions.ns (opts : DeployerCreateOptions) : String :=
  opts.resourceOptions.ns

/-- Mirror of `cobra.Command` as the source consumes it: which flags were
explicitly changed on the command line. -/
structure CmdFlags where
  containerConcurrencyChanged : Bool
  minScaleChanged : Bool
  maxScaleChanged : Bool
  deriving DecidableEq, Repr

/-- Mirror of the Go `context.Context` as consumed by `Validate`/`Exec`:
`cli.CommandFromContext` either yields the command (with its flag set) or nil. -/
structure GoContext where
  cmd : Option CmdFlags
  deriving DecidableEq, Repr

/-- Flag-name constants from the `cli` collaborator package (not among the given
sources); only `namespaceFlagName` ever reaches an operator-facing message. -/
def namespaceFlagName : String := "--namespace"

def applicationRefFlagName : String := "--application-ref"

def containerRefFlagName : String := "--container-ref"

def functionRefFlagName : String := "--function-ref"

def imageFlagName : String := "--image"

def ingressPolicyFlagName : String := "--ingress-policy"

def containerConcurrencyFlagName : String := "--container-concurrency"

def envFlagName : String := "--env"

def envFromFlagName : String := "--env-from"

def limitCPUFlagName : String := "--limit-cpu"

def limitMemoryFlagName : String := "--limit-memory"

def minScaleFlagName : String := "--min-scale"

def maxScaleFlagName : String := "--max-scale"

def targetPortFlagName : String := "--target-port"

def tailFlagName : String := "--tail"

def waitTimeoutFlagName : String := "--wait-timeout"

def dryRunFlagName : String := "--dry-run"

/-- The `knativev1alpha1.IngressPolicyClusterLocal` constant. -/
def ingressPolicyClusterLocal : String := "ClusterLocal"

/-- The `knativev1alpha1.IngressPolicyExternal` constant. -/
def ingressPolicyExternal : String := "External"

/-- Mirror of `cli.FieldErrors` entries produced in this file: the `cli` error
constructors used by `Validate`, plus a case for errors coming back from the
collaborator validators. -/
inductive FieldErr where
  | missingOneOf : List String → FieldErr
  | multipleOneOf : List String → FieldErr
  | invalidValue : String → String → FieldErr
  | missingField : String → FieldErr
  | collaborator : String → FieldErr
  deriving DecidableEq, Repr

/-- Opaque collaborator functions consumed by `Validate` and `Exec`:
the validators from the `validation`/`cli` packages and Go's
`time.ParseDuration` (`none` models a parse error; the duration value is kept
abstract as a number). The same record is passed to `Validate` and `Exec`,
reflecting that both call the same deterministic functions. -/
structure Validators where
  resourceOptions : ResourceOptions → List FieldErr
  containerConcurrency : Int → String → List FieldErr
  envVars : List String → String → List FieldErr
  envVarFroms : List String → String → List FieldErr
  quantity : String → String → List FieldErr
  portNumber : Int → String → List FieldErr
  parseDuration : String → Option Nat

/-- Mirror of `Validate` lines 77-109: application-ref, container-ref,
function-ref and image are mutually exclusive; the `used`/`unused` lists are
built by the four conditionals in order. -/
def validateBuildRefs (opts : DeployerCreateOptions) : List FieldErr :=
  let used : List String := []
  let unused : List String := []
  let used := if opts.applicationRef ≠ "" then used ++ [applicationRefFlagName] else used
  let unused := if opts.applicationRef = "" then unused ++ [applicationRefFlagName] else unused
  let used := if opts.containerRef ≠ "" then used ++ [containerRefFlagName] else used
  let unused := if opts.containerRef = "" then unused ++ [containerRefFlagName] else unused
  let used := if opts.functionRef ≠ "" then used ++ [functionRefFlagName] else used
  let unused := if opts.functionRef = "" then unused ++ [functionRefFlagName] else unused
  let used := if opts.image ≠ "" then used ++ [imageFlagName] else used
  let unused := if opts.image = "" then unused ++ [imageFlagName] else unused
  if used.length = 0 then [FieldErr.missingOneOf unused]
  else if used.length > 1 then [FieldErr.multipleOneOf used]
  else []

/-- Mirror of `Validate` lines 111-113 (ingress policy must be one of the two
known constants). -/
def validateIngressPolicy (opts : DeployerCreateOptions) : List FieldErr :=
  if opts.ingressPolicy ≠ ingressPolicyClusterLocal ∧
      opts.ingressPolicy ≠ ingressPolicyExternal then
    [FieldErr.invalidValue opts.ingressPolicy ingressPolicyFlagName]
  else []

/-- Mirror of `Validate` lines 131-135 (max-scale must be at least 1 when the
flag was explicitly set on the command). -/
def validateMaxScaleFlag (opts : DeployerCreateOptions) (ctx : GoContext) : List FieldErr :=
  match ctx.cmd with
  | some cmd =>
    if cmd.maxScaleChanged ∧ opts.maxScale < 1 then
      [FieldErr.invalidValue (toString opts.maxScale) maxScaleFlagName]
    else []
  | none => []

/-- Mirror of `Validate` lines 145-151: with `Tail` set, `WaitTimeout` must be
non-empty and must parse as a duration. -/
def validateWaitTimeout (opts : DeployerCreateOptions) (V : Validators) : List FieldErr :=
  if opts.tail then
    (if opts.waitTimeout = "" then [FieldErr.missingField waitTimeoutFlagName]
     else match V.parseDuration opts.waitTimeout with
       | none => [FieldErr.invalidValue opts.waitTimeout waitTimeoutFlagName]
       | some _ => [])
  else []

/-- Mirror of `Validate` lines 153-155 (dry-run and tail are mutually exclusive). -/
def validateDryRunTail (opts : DeployerCreateOptions) : List FieldErr :=
  if opts.dryRun ∧ opts.tail then
    [FieldErr.multipleOneOf [dryRunFlagName, tailFlagName]]
  else []

/-- Mirror of `DeployerCreateOptions.Validate`: the `errs.Also` chain of the
source is the concatenation of its checks, in source order (an empty list for
the checks whose guarding condition does not fire). -/
def DeployerCreateOptions.Validate (opts : DeployerCreateOptions)
    (ctx : GoContext) (V : Validators) : List FieldErr :=
  V.resourceOptions opts.resourceOptions
  ++ validateBuildRefs opts
  ++ validateIngressPolicy opts
  ++ V.containerConcurrency opts.containerConcurrency containerConcurrencyFlagName
  ++ V.envVars opts.env envFlagName
  ++ V.envVarFroms opts.envFrom envFromFlagName
  ++ (if opts.limitCPU ≠ "" then V.quantity opts.limitCPU limitCPUFlagName else [])
  ++ (if opts.limitMemory ≠ "" then V.quantity opts.limitMemory limitMemoryFlagName else [])
  ++ (if opts.minScale < 0 then
        [FieldErr.invalidValue (toString opts.minScale) minScaleFlagName] else [])
  ++ validateMaxScaleFlag opts ctx
  ++ (if opts.maxScale > 0 ∧ opts.minScale > opts.maxScale then
        [FieldErr.invalidValue (toString opts.maxScale) maxScaleFlagName] else [])
  ++ (if opts.targetPort ≠ 0 then V.portNumber opts.targetPort targetPortFlagName else [])
  ++ validateWaitTimeout opts V
  ++ validateDryRunTail opts

/-- An environment entry of the single container: the result of `parsers.EnvVar`
or `parsers.EnvVarFrom` applied to the raw flag value (the parsers belong to a
collaborator package; their output is kept abstract but injective in the input). -/
inductive EnvEntry where
  | envVar : String → EnvEntry
  | envVarFrom : String → EnvEntry
  deriving DecidableEq, Repr

/-- Mirror of the resource limits map: the two keys the source may set,
holding the raw quantity strings (`resource.MustParse` kept abstract). -/
structure ResourceLimits where
  cpu : Option String := none
  memory : Option String := none
  deriving DecidableEq, Repr

/-- Mirror of `corev1.ContainerPort` as constructed by the source. -/
structure ContainerPort where
  protocol : String
  containerPort : Int
  deriving DecidableEq, Repr

/-- Mirror of the single entry of `Spec.Template.Spec.Containers`. -/
structure Container where
  image : String := ""
  env : List EnvEntry := []
  limits : Option ResourceLimits := none
  ports : List ContainerPort := []
  deriving DecidableEq, Repr

/-- Mirror of `knativev1alpha1.Build` (exactly one reference set by the source). -/
structure Build where
  applicationRef : String := ""
  containerRef : String := ""
  functionRef : String := ""
  deriving DecidableEq, Repr

/-- Mirror of `knativev1alpha1.DeployerSpec` restricted to the fields the
source touches; `container` is the single element of `Template.Spec.Containers`. -/
structure DeployerSpec where
  build : Option Build := none
  ingressPolicy : String := ""
  containerConcurrency : Option Int := none
  container : Container := {}
  scaleMax : Option Int := none
  scaleMin : Option Int := none
  deriving DecidableEq, Repr

/-- Mirror of `knativev1alpha1.Deployer` (ObjectMeta namespace/name plus spec). -/
structure Deployer where
  ns : String
  name : String
  spec : DeployerSpec
  deriving DecidableEq, Repr

/-- Mirror of the deployer-construction part of `Exec` (lines 161-235):
the literal struct followed by the sequence of conditional mutations, in
source order. The Go code's lazy `Env == nil` initialisation is representation
noise with no observable effect and is folded into the appends. -/
def DeployerCreateOptions.buildDeployer (opts : DeployerCreateOptions)
    (ctx : GoContext) : Deployer :=
  let d : Deployer :=
    { ns := opts.ns
      name := opts.name
      spec := { ingressPolicy := opts.ingressPolicy } }
  let cmd := ctx.cmd
  let d := if opts.applicationRef ≠ "" then
    { d with spec.build := some { applicationRef := opts.applicationRef } } else d
  let d := if opts.containerRef ≠ "" then
    { d with spec.build := some { containerRef := opts.containerRef } } else d
  let d := if opts.functionRef ≠ "" then
    { d with spec.build := some { functionRef := opts.functionRef } } else d
  let d := if opts.image ≠ "" then
    { d with spec.container.image := opts.image } else d
  let d : Deployer := match cmd with
    | some c =>
      if c.containerConcurrencyChanged then
        { d with spec.containerConcurrency := some opts.containerConcurrency } else d
    | none => d
  let d := opts.env.foldl (fun d e =>
    { d with spec.container.env := d.spec.container.env ++ [EnvEntry.envVar e] }) d
  let d := opts.envFrom.foldl (fun d e =>
    { d with spec.container.env := d.spec.container.env ++ [EnvEntry.envVarFrom e] }) d
  let d := if (opts.limitCPU ≠ "" ∨ opts.limitMemory ≠ "") ∧ d.spec.container.limits = none then
    { d with spec.container.limits := some ({} : ResourceLimits) } else d
  let d := if opts.limitCPU ≠ "" then
    { d with spec.container.limits := some { (d.spec.container.limits.getD {}) with cpu := some opts.limitCPU } }
    else d
  let d := if opts.limitMemory ≠ "" then
    { d with spec.container.limits := some { (d.spec.container.limits.getD {}) with memory := some opts.limitMemory } }
    else d
  let d := if opts.targetPort > 0 then
    { d with spec.container.ports := [{ protocol := "TCP", containerPort := opts.targetPort }] } else d
  let d := if opts.maxScale > 0 then
    { d with spec.scaleMax := some opts.maxScale } else d
  let d : Deployer := match cmd with
    | some c =>
      if c.minScaleChanged then { d with spec.scaleMin := some opts.minScale } else d
    | none => d
  d

/-- The category of an operator-facing line: which `cli.Config` printer
(`Successf`, `Infof`, `Errorf`) emitted it. -/
inductive MsgKind where
  | success
  | info
  | error
  deriving DecidableEq, Repr

/-- The operator-facing lines `Exec` can emit, one constructor per call site,
carrying the interpolated arguments of its format string. -/
inductive Msg where
  | createdDeployer : String → Msg
  | waitingForReady : String → Msg
  | timeoutErr : String → String → Msg
  | viewStatusHint : String → String → Msg
  | watchLogsHint : String → String → String → Msg
  | deployerReady : String → Msg
  deriving DecidableEq, Repr

/-- Which printer each call site uses in the source. -/
def Msg.kind : Msg → MsgKind
  | .createdDeployer _ => .success
  | .waitingForReady _ => .info
  | .timeoutErr _ _ => .error
  | .viewStatusHint _ _ => .info
  | .watchLogsHint _ _ _ => .info
  | .deployerReady _ => .success

/-- Go's `%q` verb on the plain strings this command prints: surrounding
double quotes. -/
def goQuote (s : String) : String := "\"" ++ s ++ "\""

/-- The exact text of each line, mirroring the format strings of the source. -/
def Msg.render : Msg → String
  | .createdDeployer n => "Created deployer " ++ goQuote n ++ "\n"
  | .waitingForReady n => "Waiting for deployer " ++ goQuote n ++ " to become ready...\n"
  | .timeoutErr wt n =>
      "Timeout after " ++ goQuote wt ++ " waiting for " ++ goQuote n ++ " to become ready\n"
  | .viewStatusHint c ns =>
      "To view status run: " ++ c ++ " knative deployer list " ++ namespaceFlagName ++ " " ++ ns ++ "\n"
  | .watchLogsHint c n ns =>
      "To continue watching logs run: " ++ c ++ " knative deployer tail " ++ n ++ " " ++
        namespaceFlagName ++ " " ++ ns ++ "\n"
  | .deployerReady n => "Deployer " ++ goQuote n ++ " is ready\n"

/-- The two closures handed to `race.Run` by `Exec`, embedded symbolically:
the readiness wait (`k8s.WaitUntilReady` on the "deployers" resource) and the
log stream (`c.Kail.KnativeDeployerLogs`), each applied to the created deployer. -/
inductive Op where
  | waitUntilReady : String → Deployer → Op
  | knativeDeployerLogs : Deployer → Op
  deriving DecidableEq, Repr

/-- One invocation of `race.Run`: the timeout and the ordered operations. -/
structure RaceCall where
  timeout : Nat
  ops : List Op
  deriving DecidableEq, Repr

/-- Opaque runtime collaborators of `Exec`: the Kubernetes `Create` call and
the outcome `race.Run` yields for a given invocation (`none` is a nil error),
plus the CLI binary name `c.Name` interpolated into the guidance messages. -/
structure ExecEnv where
  create : Deployer → Except GoError Deployer
  raceResult : RaceCall → Option GoError
  cliName : String

/-- The observable behaviour of one `Exec` invocation: the lines printed, the
resources rendered by `cli.DryRunResource`, the `Create` calls issued, the
`race.Run` invocations, and the returned error (`none` is a nil return). -/
structure ExecTrace where
  msgs : List Msg
  dryRuns : List Deployer
  createCalls : List Deployer
  raceCalls : List RaceCall
  ret : Option GoError
  deriving Repr

/-- The `race.Run` invocation `Exec` builds for a created deployer `d`:
the timeout parsed from `WaitTimeout` (a failed parse yields Go's zero value;
`Validate` rules that out) and the readiness/log operations in source order. -/
def execRaceCall (opts : DeployerCreateOptions) (V : Validators) (d : Deployer) : RaceCall :=
  { timeout := (V.parseDuration opts.waitTimeout).getD 0
    ops := [Op.waitUntilReady "deployers" d, Op.knativeDeployerLogs d] }

/-- Mirror of `Exec` from line 246 on (after `DryRunResource`/`Create`): the
creation message, then, when `Tail` is set, the wait message, the race, the
`context.DeadlineExceeded` comparison with its three guidance lines and
`cli.SilenceError`, the error return, and the readiness message. `d` is the
deployer value in scope there (the `Create` result, or the built resource on
the dry-run path); `dryRuns`/`createCalls` carry what happened before. -/
def execTailPhase (opts : DeployerCreateOptions) (V : Validators) (env : ExecEnv)
    (d : Deployer) (dryRuns createCalls : List Deployer) : ExecTrace :=
  let msgs : List Msg := [Msg.createdDeployer d.name]
  if opts.tail then
    let msgs := msgs ++ [Msg.waitingForReady d.name]
    let rc := execRaceCall opts V d
    let e0 := env.raceResult rc
    let msgs := if e0 = some GoError.deadlineExceeded then
      msgs ++ [Msg.timeoutErr opts.waitTimeout opts.name,
               Msg.viewStatusHint env.cliName opts.ns,
               Msg.watchLogsHint env.cliName opts.name opts.ns]
      else msgs
    let e1 := if e0 = some GoError.deadlineExceeded then
      some (GoError.silenced GoError.deadlineExceeded) else e0
    match e1 with
    | some e => { msgs := msgs, dryRuns := dryRuns, createCalls := createCalls,
                  raceCalls := [rc], ret := some e }
    | none => { msgs := msgs ++ [Msg.deployerReady d.name], dryRuns := dryRuns,
                createCalls := createCalls, raceCalls := [rc], ret := none }
  else
    { msgs := msgs, dryRuns := dryRuns, createCalls := createCalls,
      raceCalls := [], ret := none }

/-- Mirror of `DeployerCreateOptions.Exec`: build the deployer; on a dry run
render it, otherwise call `Create` and return its error unchanged on failure
(rebinding `deployer` to the returned object on success); then the reporting
phase shared by both paths. -/
def DeployerCreateOptions.Exec (opts : DeployerCreateOptions) (ctx : GoContext)
    (V : Validators) (env : ExecEnv) : ExecTrace :=
  let deployer := opts.buildDeployer ctx
  if opts.dryRun then
    execTailPhase opts V env deployer [deployer] []
  else
    match env.create deployer with
    | .error e =>
        { msgs := [], dryRuns := [], createCalls := [deployer], raceCalls := [], ret := some e }
    | .ok d => execTailPhase opts V env d [] [deployer]

/-- Mirror of `DeployerCreateOptions.IsDryRun`. -/
def DeployerCreateOptions.IsDryRun (opts : DeployerCreateOptions) : Bool :=
  opts.dryRun

namespace race

/-- Modelled from the spec: the events one `race.Run` invocation can observe,
in the order the scheduler delivers them — an Operation returning (with a nil
or non-nil error), the child context's deadline firing, and control flowing
back to `Run`'s caller. The `race` package's source is not among the given
sources; §4.1 of the spec defines its behaviour. -/
inductive RaceEvent where
  | opCompleted : Nat → Option GoError → RaceEvent
  | deadlineFired : RaceEvent
  | returnToCaller : RaceEvent
  deriving DecidableEq, Repr

/-- Modelled from the spec: the lifecycle of one `Run` invocation — awaiting
the first qualifying event, having decided the outcome, and having returned it. -/
inductive RacePhase where
  | running : RacePhase
  | decided : Option GoError → RacePhase
  | returned : Option GoError → RacePhase
  deriving DecidableEq, Repr

/-- Modelled from the spec: the state of one `Run` invocation, tracking whether
the child context shared by all Operations has been canceled. -/
structure RaceState where
  phase : RacePhase
  childCanceled : Bool
  deriving DecidableEq, Repr

/-- Modelled from the spec: `Run` begins awaiting the first event with the
child context not yet canceled. -/
def initState : RaceState :=
  { phase := .running, childCanceled := false }

/-- Modelled from the spec, §4.1 steps 3-5: the first Operation completion maps
to its own result and the deadline maps to the deadline-exceeded error, and in
either case the child context is canceled as soon as the decision is made;
`Run` can only hand the outcome back after a decision; late events after the
decision change nothing. -/
def step : RaceState → RaceEvent → RaceState
  | ⟨.running, _⟩, .opCompleted _ r => ⟨.decided r, true⟩
  | ⟨.running, _⟩, .deadlineFired => ⟨.decided (some GoError.deadlineExceeded), true⟩
  | ⟨.running, c⟩, .returnToCaller => ⟨.running, c⟩
  | ⟨.decided o, c⟩, .returnToCaller => ⟨.returned o, c⟩
  | ⟨.decided o, c⟩, .opCompleted _ _ => ⟨.decided o, c⟩
  | ⟨.decided o, c⟩, .deadlineFired => ⟨.decided o, c⟩
  | ⟨.returned o, c⟩, _ => ⟨.returned o, c⟩

/-- Modelled from the spec: the state one `Run` invocation reaches after
observing a given event trace. -/
def Run (events : List RaceEvent) : RaceState :=
  events.foldl step initState

end race

/-- The string `needle` occurs verbatim inside `hay` (used to express that an
operator-facing line is parameterized by a given value). -/
def occursStr (needle hay : String) : Prop :=
  ∃ a b : List Char, hay.data = a ++ needle.data ++ b

/-- A rendered message is a single output line: its text contains exactly one
newline character (the terminating one of its format string). -/
def singleLine (s : String) : Prop :=
  s.data.count '\n' = 1

/-- Collaborator validators for concrete evaluations: external validators that
accept everything, and a duration parser defined on the literals exercised. -/
def testV : Validators :=
  { resourceOptions := fun _ => []
    containerConcurrency := fun _ _ => []
    envVars := fun _ _ => []
    envVarFroms := fun _ _ => []
    quantity := fun _ _ => []
    portNumber := fun _ _ => []
    parseDuration := fun s => if s = "10m" then some 600 else none }

/-- A context whose command pointer is nil. -/
def ctx0 : GoContext := { cmd := none }

/-- Concrete options: an application-ref deployer named "zzz" in namespace
"default", with tailing enabled and the default ten-minute wait timeout. -/
def baseOpts : DeployerCreateOptions :=
  { resourceOptions := { ns := "default", name := "zzz" }
    image := ""
    applicationRef := "my-app"
    containerRef := ""
    functionRef := ""
    ingressPolicy := ingressPolicyClusterLocal
    targetPort := 0
    containerConcurrency := 0
    env := []
    envFrom := []
    limitCPU := ""
    limitMemory := ""
    maxScale := 0
    minScale := 0
    tail := true
    waitTimeout := "10m"
    dryRun := false }

/-- Concrete options for the dry-run path (tail off, as `Validate` requires). -/
def dryOpts : DeployerCreateOptions :=
  { baseOpts with dryRun := true, tail := false }

/-- A runtime environment whose `Create` echoes its argument and whose race
times out. -/
def envTimedOut : ExecEnv :=
  { create := fun d => Except.ok d
    raceResult := fun _ => some GoError.deadlineExceeded
    cliName := "riff" }

/-- A runtime environment whose race fails with an ordinary stream error. -/
def envOpFailed : ExecEnv :=
  { create := fun d => Except.ok d
    raceResult := fun _ => some (GoError.other "stream failed")
    cliName := "riff" }

/-- A runtime environment whose race ends with the readiness success. -/
def envReady : ExecEnv :=
  { create := fun d => Except.ok d
    raceResult := fun _ => none
    cliName := "riff" }

/-- A runtime environment whose `Create` call fails outright. -/
def envCreateFails : ExecEnv :=
  { create := fun _ => Except.error (GoError.other "create failed")
    raceResult := fun _ => none
    cliName := "riff" }

/-- The condition under which `Exec` reaches the waiting phase with deployer
`d` in scope: the dry-run path (where `d` is the constructed resource) or a
successful `Create` call returning `d`. -/
def ReachesWait (opts : DeployerCreateOptions) (ctx : GoContext) (env : ExecEnv)
    (d : Deployer) : Prop :=
  (opts.dryRun = true ∧ d = opts.buildDeployer ctx) ∨
  (opts.dryRun = false ∧ env.create (opts.buildDeployer ctx) = Except.ok d)

/-- The three terminal outcomes of the orchestration, per the spec's state
machine `Running → Ready | Failed | TimedOut`. -/
inductive OutcomeClass where
  | ready : OutcomeClass
  | failed : GoError → OutcomeClass
  | timedOut : OutcomeClass
  deriving DecidableEq, Repr

/-- The outcome class determined by what the race returned, following the
source's classification: nil is readiness, the `context.DeadlineExceeded`
sentinel is the timeout, anything else is a propagated failure. -/
def outcomeOf (r : Option GoError) : OutcomeClass :=
  match r with
  | none => .ready
  | some e => if e = GoError.deadlineExceeded then .timedOut else .failed e

/-- The reporting contract of the timeout path: after the two progress lines,
exactly the three guidance lines follow — an error line parameterized by the
configured wait duration and the resource name, a status-check hint
parameterized by the namespace, and a log-resume hint parameterized by the
resource name and the namespace — each rendered as a single line. -/
def TimeoutReporting (opts : DeployerCreateOptions) (ctx : GoContext)
    (V : Validators) (env : ExecEnv) (d : Deployer) : Prop :=
  (opts.Exec ctx V env).msgs =
    [Msg.createdDeployer d.name, Msg.waitingForReady d.name,
     Msg.timeoutErr opts.waitTimeout opts.name,
     Msg.viewStatusHint env.cliName opts.ns,
     Msg.watchLogsHint env.cliName opts.name opts.ns] ∧
  (Msg.timeoutErr opts.waitTimeout opts.name).kind = MsgKind.error ∧
  (Msg.viewStatusHint env.cliName opts.ns).kind = MsgKind.info ∧
  (Msg.watchLogsHint env.cliName opts.name opts.ns).kind = MsgKind.info ∧
  singleLine (Msg.timeoutErr opts.waitTimeout opts.name).render ∧
  singleLine (Msg.viewStatusHint env.cliName opts.ns).render ∧
  singleLine (Msg.watchLogsHint env.cliName opts.name opts.ns).render ∧
  occursStr opts.waitTimeout (Msg.timeoutErr opts.waitTimeout opts.name).render ∧
  occursStr opts.name (Msg.timeoutErr opts.waitTimeout opts.name).render ∧
  occursStr opts.ns (Msg.viewStatusHint env.cliName opts.ns).render ∧
  occursStr opts.name (Msg.watchLogsHint env.cliName opts.name opts.ns).render ∧
  occursStr opts.ns (Msg.watchLogsHint env.cliName opts.name opts.ns).render

/-- Under `ReachesWait`, `Exec` is the waiting phase applied to `d`, with the
dry-run rendering or the `Create` call recorded according to the path taken. -/
theorem exec_eq_tailPhase (opts : DeployerCreateOptions) (ctx : GoContext)
    (V : Validators) (env : ExecEnv) (d : Deployer)
    (h : ReachesWait opts ctx env d) :
    opts.Exec ctx V env = execTailPhase opts V env d
      (if opts.dryRun then [opts.buildDeployer ctx] else [])
      (if opts.dryRun then [] else [opts.buildDeployer ctx]) := by
  rcases h with ⟨h1, h2⟩ | ⟨h1, h2⟩
  · subst h2
    simp [DeployerCreateOptions.Exec, h1]
  · simp [DeployerCreateOptions.Exec, h1, h2]

/-- Waiting phase, deadline-exceeded case: the two progress lines, the three
guidance lines, one race call, and the silenced timeout error. -/
theorem tailPhase_deadline (opts : DeployerCreateOptions) (V : Validators)
    (env : ExecEnv) (d : Deployer) (dr cc : List Deployer)
    (htail : opts.tail = true)
    (hrace : env.raceResult (execRaceCall opts V d) = some GoError.deadlineExceeded) :
    execTailPhase opts V env d dr cc =
      { msgs := [Msg.createdDeployer d.name, Msg.waitingForReady d.name,
                 Msg.timeoutErr opts.waitTimeout opts.name,
                 Msg.viewStatusHint env.cliName opts.ns,
                 Msg.watchLogsHint env.cliName opts.name opts.ns],
        dryRuns := dr, createCalls := cc,
        raceCalls := [execRaceCall opts V d],
        ret := some (GoError.silenced GoError.deadlineExceeded) } := by
  simp [execTailPhase, htail, hrace]

/-- Waiting phase, ordinary-failure case: the error is handed back unchanged
and only the two progress lines are printed. -/
theorem tailPhase_opFailed (opts : DeployerCreateOptions) (V : Validators)
    (env : ExecEnv) (d : Deployer) (dr cc : List Deployer) (e : GoError)
    (htail : opts.tail = true)
    (hne : e ≠ GoError.deadlineExceeded)
    (hrace : env.raceResult (execRaceCall opts V d) = some e) :
    execTailPhase opts V env d dr cc =
      { msgs := [Msg.createdDeployer d.name, Msg.waitingForReady d.name],
        dryRuns := dr, createCalls := cc,
        raceCalls := [execRaceCall opts V d],
        ret := some e } := by
  simp [execTailPhase, htail, hrace, hne]

/-- Waiting phase, readiness-success case: nil return and the readiness line. -/
theorem tailPhase_ready (opts : DeployerCreateOptions) (V : Validators)
    (env : ExecEnv) (d : Deployer) (dr cc : List Deployer)
    (htail : opts.tail = true)
    (hrace : env.raceResult (execRaceCall opts V d) = none) :
    execTailPhase opts V env d dr cc =
      { msgs := [Msg.createdDeployer d.name, Msg.waitingForReady d.name,
                 Msg.deployerReady d.name],
        dryRuns := dr, createCalls := cc,
        raceCalls := [execRaceCall opts V d],
        ret := none } := by
  simp [execTailPhase, htail, hrace]

/-- Waiting phase with `Tail` unset: only the creation line, no race. -/
theorem tailPhase_noTail (opts : DeployerCreateOptions) (V : Validators)
    (env : ExecEnv) (d : Deployer) (dr cc : List Deployer)
    (htail : opts.tail = false) :
    execTailPhase opts V env d dr cc =
      { msgs := [Msg.createdDeployer d.name],
        dryRuns := dr, createCalls := cc, raceCalls := [], ret := none } := by
  simp [execTailPhase, htail]

/-- With `Tail` set the waiting phase always records exactly the one race call. -/
theorem tailPhase_raceCalls (opts : DeployerCreateOptions) (V : Validators)
    (env : ExecEnv) (d : Deployer) (dr cc : List Deployer)
    (htail : opts.tail = true) :
    (execTailPhase opts V env d dr cc).raceCalls = [execRaceCall opts V d] := by
  cases hr : env.raceResult (execRaceCall opts V d) with
  | none => rw [tailPhase_ready opts V env d dr cc htail hr]
  | some e =>
    by_cases he : e = GoError.deadlineExceeded
    · subst he
      rw [tailPhase_deadline opts V env d dr cc htail hr]
    · rw [tailPhase_opFailed opts V env d dr cc e htail he hr]

/-- The waiting phase never renders further resources. -/
theorem tailPhase_dryRuns (opts : DeployerCreateOptions) (V : Validators)
    (env : ExecEnv) (d : Deployer) (dr cc : List Deployer) :
    (execTailPhase opts V env d dr cc).dryRuns = dr := by
  cases htail : opts.tail with
  | false => rw [tailPhase_noTail opts V env d dr cc htail]
  | true =>
    cases hr : env.raceResult (execRaceCall opts V d) with
    | none => rw [tailPhase_ready opts V env d dr cc htail hr]
    | some e =>
      by_cases he : e = GoError.deadlineExceeded
      · subst he
        rw [tailPhase_deadline opts V env d dr cc htail hr]
      · rw [tailPhase_opFailed opts V env d dr cc e htail he hr]

/-- The waiting phase never issues further `Create` calls. -/
theorem tailPhase_createCalls (opts : DeployerCreateOptions) (V : Validators)
    (env : ExecEnv) (d : Deployer) (dr cc : List Deployer) :
    (execTailPhase opts V env d dr cc).createCalls = cc := by
  cases htail : opts.tail with
  | false => rw [tailPhase_noTail opts V env d dr cc htail]
  | true =>
    cases hr : env.raceResult (execRaceCall opts V d) with
    | none => rw [tailPhase_ready opts V env d dr cc htail hr]
    | some e =>
      by_cases he : e = GoError.deadlineExceeded
      · subst he
        rw [tailPhase_deadline opts V env d dr cc htail hr]
      · rw [tailPhase_opFailed opts V env d dr cc e htail he hr]

/-- Invariant of the spec-modelled race machine: the only state with the child
context not yet canceled is the initial awaiting state. -/
theorem race_step_inv (s : race.RaceState) (e : race.RaceEvent)
    (hs : s.childCanceled = false → s.phase = race.RacePhase.running) :
    (race.step s e).childCanceled = false →
      (race.step s e).phase = race.RacePhase.running := by
  rcases s with ⟨p, c⟩
  cases p <;> cases e <;> simp_all [race.step]

/-- The invariant holds along every event trace of the race machine. -/
theorem race_foldl_inv (events : List race.RaceEvent) (s : race.RaceState)
    (hs : s.childCanceled = false → s.phase = race.RacePhase.running) :
    (events.foldl race.step s).childCanceled = false →
      (events.foldl race.step s).phase = race.RacePhase.running := by
  induction events generalizing s with
  | nil => exact hs
  | cons e es ih => exact ih (race.step s e) (race_step_inv s e hs)

/-- The timeout error line is a single line when its arguments are. -/
theorem timeoutErr_singleLine (wt n : String)
    (hwt : ¬ '\n' ∈ wt.data) (hn : ¬ '\n' ∈ n.data) :
    singleLine (Msg.timeoutErr wt n).render := by
  simp [Msg.render, goQuote, singleLine, String.data_append, List.count_append,
    List.count_eq_zero.mpr hwt, List.count_eq_zero.mpr hn]

/-- The status-check hint is a single line when its arguments are. -/
theorem viewStatusHint_singleLine (c ns : String)
    (hcn : ¬ '\n' ∈ c.data) (hns : ¬ '\n' ∈ ns.data) :
    singleLine (Msg.viewStatusHint c ns).render := by
  simp [Msg.render, namespaceFlagName, singleLine, String.data_append, List.count_append,
    List.count_eq_zero.mpr hcn, List.count_eq_zero.mpr hns]

set_option maxHeartbeats 1000000 in
/-- The log-resume hint is a single line when its arguments are. -/
theorem watchLogsHint_singleLine (c n ns : String)
    (hcn : ¬ '\n' ∈ c.data) (hn : ¬ '\n' ∈ n.data) (hns : ¬ '\n' ∈ ns.data) :
    singleLine (Msg.watchLogsHint c n ns).render := by
  simp [Msg.render, namespaceFlagName, singleLine, String.data_append, List.count_append,
    List.count_eq_zero.mpr hcn, List.count_eq_zero.mpr hn, List.count_eq_zero.mpr hns]

/-- The timeout error line displays the configured wait duration. -/
theorem timeoutErr_has_waitTimeout (wt n : String) :
    occursStr wt (Msg.timeoutErr wt n).render :=
  ⟨"Timeout after ".data ++ "\"".data,
    "\"".data ++ (" waiting for ".data ++ ("\"".data ++ (n.data ++
      ("\"".data ++ " to become ready\n".data)))),
    by simp [Msg.render, goQuote, String.data_append, List.append_assoc]⟩

/-- The timeout error line displays the resource name. -/
theorem timeoutErr_has_name (wt n : String) :
    occursStr n (Msg.timeoutErr wt n).render :=
  ⟨"Timeout after ".data ++ ("\"".data ++ (wt.data ++
      ("\"".data ++ (" waiting for ".data ++ "\"".data)))),
    "\"".data ++ " to become ready\n".data,
    by simp [Msg.render, goQuote, String.data_append, List.append_assoc]⟩

/-- The status-check hint displays the namespace. -/
theorem viewStatusHint_has_ns (c ns : String) :
    occursStr ns (Msg.viewStatusHint c ns).render :=
  ⟨"To view status run: ".data ++ (c.data ++
      (" knative deployer list ".data ++ (namespaceFlagName.data ++ " ".data))),
    "\n".data,
    by simp [Msg.render, String.data_append, List.append_assoc]⟩

/-- The log-resume hint displays the resource name. -/
theorem watchLogsHint_has_name (c n ns : String) :
    occursStr n (Msg.watchLogsHint c n ns).render :=
  ⟨"To continue watching logs run: ".data ++ (c.data ++ " knative deployer tail ".data),
    " ".data ++ (namespaceFlagName.data ++ (" ".data ++ (ns.data ++ "\n".data))),
    by simp [Msg.render, String.data_append, List.append_assoc]⟩

/-- The log-resume hint displays the namespace. -/
theorem watchLogsHint_has_ns (c n ns : String) :
    occursStr ns (Msg.watchLogsHint c n ns).render :=
  ⟨"To continue watching logs run: ".data ++ (c.data ++
      (" knative deployer tail ".data ++ (n.data ++
        (" ".data ++ (namespaceFlagName.data ++ " ".data))))),
    "\n".data,
    by simp [Msg.render, String.data_append, List.append_assoc]⟩

/-- Claim C1: with `Tail` set, an invocation of `Exec` whose race ends in the
deadline-exceeded outcome emits the timeout guidance (the timeout error line,
the status-check hint and the log-resume hint) and returns a non-nil error
carrying the silenced marking, which generic top-level rendering suppresses. -/
theorem claim_C1_timeout_guidance_and_silenced_error
    (opts : DeployerCreateOptions) (ctx : GoContext) (V : Validators)
    (env : ExecEnv) (d : Deployer)
    (htail : opts.tail = true) (hreach : ReachesWait opts ctx env d)
    (hrace : env.raceResult (execRaceCall opts V d) = some GoError.deadlineExceeded) :
    (opts.Exec ctx V env).ret = some (GoError.silenced GoError.deadlineExceeded) ∧
    (∀ e, (opts.Exec ctx V env).ret = some e →
      e.isSilent = true ∧ topLevelRenders e = false) ∧
    Msg.timeoutErr opts.waitTimeout opts.name ∈ (opts.Exec ctx V env).msgs ∧
    Msg.viewStatusHint env.cliName opts.ns ∈ (opts.Exec ctx V env).msgs ∧
    Msg.watchLogsHint env.cliName opts.name opts.ns ∈ (opts.Exec ctx V env).msgs := by
  rw [exec_eq_tailPhase opts ctx V env d hreach,
    tailPhase_deadline opts V env d _ _ htail hrace]
  refine ⟨rfl, ?_, by simp, by simp, by simp⟩
  intro e he
  cases he
  exact ⟨rfl, rfl⟩

/-- Witness for claim C1 at a concrete timed-out invocation. -/
theorem claim_C1_witness :
    (baseOpts.Exec ctx0 testV envTimedOut).ret =
      some (GoError.silenced GoError.deadlineExceeded) ∧
    (∀ e, (baseOpts.Exec ctx0 testV envTimedOut).ret = some e →
      e.isSilent = true ∧ topLevelRenders e = false) ∧
    Msg.timeoutErr baseOpts.waitTimeout baseOpts.name ∈
      (baseOpts.Exec ctx0 testV envTimedOut).msgs ∧
    Msg.viewStatusHint envTimedOut.cliName baseOpts.ns ∈
      (baseOpts.Exec ctx0 testV envTimedOut).msgs ∧
    Msg.watchLogsHint envTimedOut.cliName baseOpts.name baseOpts.ns ∈
      (baseOpts.Exec ctx0 testV envTimedOut).msgs :=
  claim_C1_timeout_guidance_and_silenced_error baseOpts ctx0 testV envTimedOut
    (baseOpts.buildDeployer ctx0) rfl (Or.inr ⟨rfl, rfl⟩) rfl

/-- Claim C2: with `Tail` set, an invocation of `Exec` whose race ends in a
non-nil error other than the deadline-exceeded sentinel returns exactly that
error, with no timeout guidance and no readiness success line. -/
theorem claim_C2_other_error_propagated_unchanged
    (opts : DeployerCreateOptions) (ctx : GoContext) (V : Validators)
    (env : ExecEnv) (d : Deployer) (e : GoError)
    (htail : opts.tail = true) (hreach : ReachesWait opts ctx env d)
    (hne : e ≠ GoError.deadlineExceeded)
    (hrace : env.raceResult (execRaceCall opts V d) = some e) :
    (opts.Exec ctx V env).ret = some e ∧
    (∀ wt n, Msg.timeoutErr wt n ∉ (opts.Exec ctx V env).msgs) ∧
    (∀ c n, Msg.viewStatusHint c n ∉ (opts.Exec ctx V env).msgs) ∧
    (∀ c n m, Msg.watchLogsHint c n m ∉ (opts.Exec ctx V env).msgs) ∧
    (∀ n, Msg.deployerReady n ∉ (opts.Exec ctx V env).msgs) := by
  rw [exec_eq_tailPhase opts ctx V env d hreach,
    tailPhase_opFailed opts V env d _ _ e htail hne hrace]
  refine ⟨rfl, ?_, ?_, ?_, ?_⟩ <;> intros <;> simp

/-- Witness for claim C2 at a concrete invocation whose stream fails. -/
theorem claim_C2_witness :
    (baseOpts.Exec ctx0 testV envOpFailed).ret = some (GoError.other "stream failed") ∧
    (∀ wt n, Msg.timeoutErr wt n ∉ (baseOpts.Exec ctx0 testV envOpFailed).msgs) ∧
    (∀ c n, Msg.viewStatusHint c n ∉ (baseOpts.Exec ctx0 testV envOpFailed).msgs) ∧
    (∀ c n m, Msg.watchLogsHint c n m ∉ (baseOpts.Exec ctx0 testV envOpFailed).msgs) ∧
    (∀ n, Msg.deployerReady n ∉ (baseOpts.Exec ctx0 testV envOpFailed).msgs) :=
  claim_C2_other_error_propagated_unchanged baseOpts ctx0 testV envOpFailed
    (baseOpts.buildDeployer ctx0) (GoError.other "stream failed") rfl
    (Or.inr ⟨rfl, rfl⟩) (fun h => nomatch h) rfl

/-- Claim C3: with `Tail` set, an invocation of `Exec` whose race returns nil
reports the readiness success line naming the ready deployer and returns nil. -/
theorem claim_C3_ready_success
    (opts : DeployerCreateOptions) (ctx : GoContext) (V : Validators)
    (env : ExecEnv) (d : Deployer)
    (htail : opts.tail = true) (hreach : ReachesWait opts ctx env d)
    (hrace : env.raceResult (execRaceCall opts V d) = none) :
    (opts.Exec ctx V env).ret = none ∧
    Msg.deployerReady d.name ∈ (opts.Exec ctx V env).msgs := by
  rw [exec_eq_tailPhase opts ctx V env d hreach,
    tailPhase_ready opts V env d _ _ htail hrace]
  exact ⟨rfl, by simp⟩

/-- Witness for claim C3 at a concrete invocation whose readiness wait wins. -/
theorem claim_C3_witness :
    (baseOpts.Exec ctx0 testV envReady).ret = none ∧
    Msg.deployerReady (baseOpts.buildDeployer ctx0).name ∈
      (baseOpts.Exec ctx0 testV envReady).msgs :=
  claim_C3_ready_success baseOpts ctx0 testV envReady
    (baseOpts.buildDeployer ctx0) rfl (Or.inr ⟨rfl, rfl⟩) rfl

/-- Claim C4 (settled against the spec-modelled race executor, the `race`
package's source not being among the given sources): whenever `Run` has
returned an outcome, the child context shared by all Operations has been
canceled — on the success, failure and deadline paths alike. -/
theorem claim_C4_child_context_canceled_before_return
    (events : List race.RaceEvent) (o : Option GoError)
    (h : (race.Run events).phase = race.RacePhase.returned o) :
    (race.Run events).childCanceled = true := by
  by_contra hc
  have hfalse : (race.Run events).childCanceled = false := by
    simpa using hc
  have hrun : (race.Run events).phase = race.RacePhase.running :=
    race_foldl_inv events race.initState (fun _ => rfl) hfalse
  rw [h] at hrun
  exact race.RacePhase.noConfusion hrun

/-- Witness for claim C4 on a trace where an Operation succeeds first and the
outcome is then returned. -/
theorem claim_C4_witness :
    (race.Run [race.RaceEvent.opCompleted 0 none, race.RaceEvent.returnToCaller]).phase =
      race.RacePhase.returned none ∧
    (race.Run [race.RaceEvent.opCompleted 0 none, race.RaceEvent.returnToCaller]).childCanceled =
      true :=
  ⟨rfl, claim_C4_child_context_canceled_before_return _ none rfl⟩

/-- Claim C5 as stated is false: an invocation of `Exec` with `Tail` set whose
remote `Create` call fails returns before the waiting phase, so the race
executor is called zero times, not exactly once. -/
theorem claim_C5_counterexample :
    baseOpts.tail = true ∧
    (baseOpts.Exec ctx0 testV envCreateFails).raceCalls = [] :=
  ⟨rfl, rfl⟩

/-- Claim C5 (amended to invocations that reach the waiting phase): `Exec`
then calls the race executor exactly once, with exactly the readiness-wait
and log-stream operations for the created deployer, in that order, and with
the timeout parsed from the `WaitTimeout` option. -/
theorem claim_C5_race_called_exactly_once
    (opts : DeployerCreateOptions) (ctx : GoContext) (V : Validators)
    (env : ExecEnv) (d : Deployer)
    (htail : opts.tail = true) (hreach : ReachesWait opts ctx env d) :
    (opts.Exec ctx V env).raceCalls = [execRaceCall opts V d] ∧
    (execRaceCall opts V d).ops =
      [Op.waitUntilReady "deployers" d, Op.knativeDeployerLogs d] ∧
    (execRaceCall opts V d).timeout = (V.parseDuration opts.waitTimeout).getD 0 := by
  refine ⟨?_, rfl, rfl⟩
  rw [exec_eq_tailPhase opts ctx V env d hreach]
  exact tailPhase_raceCalls opts V env d _ _ htail

/-- Witness for the amended claim C5 at a concrete invocation. -/
theorem claim_C5_witness :
    (baseOpts.Exec ctx0 testV envReady).raceCalls =
      [execRaceCall baseOpts testV (baseOpts.buildDeployer ctx0)] ∧
    (execRaceCall baseOpts testV (baseOpts.buildDeployer ctx0)).ops =
      [Op.waitUntilReady "deployers" (baseOpts.buildDeployer ctx0),
       Op.knativeDeployerLogs (baseOpts.buildDeployer ctx0)] ∧
    (execRaceCall baseOpts testV (baseOpts.buildDeployer ctx0)).timeout =
      (testV.parseDuration baseOpts.waitTimeout).getD 0 :=
  claim_C5_race_called_exactly_once baseOpts ctx0 testV envReady
    (baseOpts.buildDeployer ctx0) rfl (Or.inr ⟨rfl, rfl⟩)

/-- Claim C6: an invocation of `Exec` with `Tail` set that reaches the race
produces exactly one of the three terminal outcomes — Ready (nil return with
the success line), Failed (the propagated error), TimedOut (the silenced
error) — and the race executor is invoked exactly once, so the orchestration
is one-shot. -/
theorem claim_C6_exactly_one_terminal_outcome
    (opts : DeployerCreateOptions) (ctx : GoContext) (V : Validators)
    (env : ExecEnv) (d : Deployer)
    (htail : opts.tail = true) (hreach : ReachesWait opts ctx env d) :
    (opts.Exec ctx V env).raceCalls = [execRaceCall opts V d] ∧
    (outcomeOf (env.raceResult (execRaceCall opts V d)) = OutcomeClass.ready →
      (opts.Exec ctx V env).ret = none ∧
      Msg.deployerReady d.name ∈ (opts.Exec ctx V env).msgs) ∧
    (∀ e, outcomeOf (env.raceResult (execRaceCall opts V d)) = OutcomeClass.failed e →
      (opts.Exec ctx V env).ret = some e ∧
      (∀ n, Msg.deployerReady n ∉ (opts.Exec ctx V env).msgs)) ∧
    (outcomeOf (env.raceResult (execRaceCall opts V d)) = OutcomeClass.timedOut →
      (opts.Exec ctx V env).ret = some (GoError.silenced GoError.deadlineExceeded) ∧
      (∀ n, Msg.deployerReady n ∉ (opts.Exec ctx V env).msgs)) ∧
    ((outcomeOf (env.raceResult (execRaceCall opts V d)) = OutcomeClass.ready ∧
        (∀ e, outcomeOf (env.raceResult (execRaceCall opts V d)) ≠ OutcomeClass.failed e) ∧
        outcomeOf (env.raceResult (execRaceCall opts V d)) ≠ OutcomeClass.timedOut) ∨
     ((∃ e, outcomeOf (env.raceResult (execRaceCall opts V d)) = OutcomeClass.failed e) ∧
        outcomeOf (env.raceResult (execRaceCall opts V d)) ≠ OutcomeClass.ready ∧
        outcomeOf (env.raceResult (execRaceCall opts V d)) ≠ OutcomeClass.timedOut) ∨
     (outcomeOf (env.raceResult (execRaceCall opts V d)) = OutcomeClass.timedOut ∧
        outcomeOf (env.raceResult (execRaceCall opts V d)) ≠ OutcomeClass.ready ∧
        (∀ e, outcomeOf (env.raceResult (execRaceCall opts V d)) ≠ OutcomeClass.failed e))) := by
  rw [exec_eq_tailPhase opts ctx V env d hreach]
  refine ⟨tailPhase_raceCalls opts V env d _ _ htail, ?_, ?_, ?_, ?_⟩
  · cases hr : env.raceResult (execRaceCall opts V d) with
    | none =>
      rw [tailPhase_ready opts V env d _ _ htail hr]
      intro _
      exact ⟨rfl, by simp⟩
    | some e =>
      by_cases he : e = GoError.deadlineExceeded <;> simp [outcomeOf, he]
  · cases hr : env.raceResult (execRaceCall opts V d) with
    | none => simp [outcomeOf]
    | some e =>
      by_cases he : e = GoError.deadlineExceeded
      · simp [outcomeOf, he]
      · intro e' he'
        have : e = e' := by simpa [outcomeOf, he] using he'
        subst this
        rw [tailPhase_opFailed opts V env d _ _ e htail he hr]
        exact ⟨rfl, by intro n; simp⟩
  · cases hr : env.raceResult (execRaceCall opts V d) with
    | none => simp [outcomeOf]
    | some e =>
      by_cases he : e = GoError.deadlineExceeded
      · subst he
        intro _
        rw [tailPhase_deadline opts V env d _ _ htail hr]
        exact ⟨rfl, by intro n; simp⟩
      · simp [outcomeOf, he]
  · cases hr : env.raceResult (execRaceCall opts V d) with
    | none =>
      left
      simp [outcomeOf]
    | some e =>
      by_cases he : e = GoError.deadlineExceeded
      · subst he
        right; right
        simp [outcomeOf]
      · right; left
        simp [outcomeOf, he]

/-- Witness for claim C6 at a concrete invocation that ends ready. -/
theorem claim_C6_witness :
    (baseOpts.Exec ctx0 testV envReady).raceCalls =
      [execRaceCall baseOpts testV (baseOpts.buildDeployer ctx0)] ∧
    (outcomeOf (envReady.raceResult (execRaceCall baseOpts testV (baseOpts.buildDeployer ctx0))) =
        OutcomeClass.ready →
      (baseOpts.Exec ctx0 testV envReady).ret = none ∧
      Msg.deployerReady (baseOpts.buildDeployer ctx0).name ∈
        (baseOpts.Exec ctx0 testV envReady).msgs) ∧
    (∀ e, outcomeOf (envReady.raceResult (execRaceCall baseOpts testV (baseOpts.buildDeployer ctx0))) =
        OutcomeClass.failed e →
      (baseOpts.Exec ctx0 testV envReady).ret = some e ∧
      (∀ n, Msg.deployerReady n ∉ (baseOpts.Exec ctx0 testV envReady).msgs)) ∧
    (outcomeOf (envReady.raceResult (execRaceCall baseOpts testV (baseOpts.buildDeployer ctx0))) =
        OutcomeClass.timedOut →
      (baseOpts.Exec ctx0 testV envReady).ret = some (GoError.silenced GoError.deadlineExceeded) ∧
      (∀ n, Msg.deployerReady n ∉ (baseOpts.Exec ctx0 testV envReady).msgs)) ∧
    ((outcomeOf (envReady.raceResult (execRaceCall baseOpts testV (baseOpts.buildDeployer ctx0))) =
        OutcomeClass.ready ∧
      (∀ e, outcomeOf (envReady.raceResult (execRaceCall baseOpts testV (baseOpts.buildDeployer ctx0))) ≠
        OutcomeClass.failed e) ∧
      outcomeOf (envReady.raceResult (execRaceCall baseOpts testV (baseOpts.buildDeployer ctx0))) ≠
        OutcomeClass.timedOut) ∨
     ((∃ e, outcomeOf (envReady.raceResult (execRaceCall baseOpts testV (baseOpts.buildDeployer ctx0))) =
        OutcomeClass.failed e) ∧
      outcomeOf (envReady.raceResult (execRaceCall baseOpts testV (baseOpts.buildDeployer ctx0))) ≠
        OutcomeClass.ready ∧
      outcomeOf (envReady.raceResult (execRaceCall baseOpts testV (baseOpts.buildDeployer ctx0))) ≠
        OutcomeClass.timedOut) ∨
     (outcomeOf (envReady.raceResult (execRaceCall baseOpts testV (baseOpts.buildDeployer ctx0))) =
        OutcomeClass.timedOut ∧
      outcomeOf (envReady.raceResult (execRaceCall baseOpts testV (baseOpts.buildDeployer ctx0))) ≠
        OutcomeClass.ready ∧
      (∀ e, outcomeOf (envReady.raceResult (execRaceCall baseOpts testV (baseOpts.buildDeployer ctx0))) ≠
        OutcomeClass.failed e))) :=
  claim_C6_exactly_one_terminal_outcome baseOpts ctx0 testV envReady
    (baseOpts.buildDeployer ctx0) rfl (Or.inr ⟨rfl, rfl⟩)

/-- Claim C8: options passing `Validate` with `Tail` set have a non-empty
`WaitTimeout` that parses as a duration, so the parse whose error `Exec`
discards cannot fail and the timeout the race receives is the parsed value. -/
theorem claim_C8_validated_wait_timeout_parses
    (opts : DeployerCreateOptions) (ctx : GoContext) (V : Validators)
    (hv : opts.Validate ctx V = []) (htail : opts.tail = true) :
    opts.waitTimeout ≠ "" ∧
    ∃ n, V.parseDuration opts.waitTimeout = some n ∧
      ∀ d, (execRaceCall opts V d).timeout = n := by
  have hwtv : validateWaitTimeout opts V = [] := by
    simp only [DeployerCreateOptions.Validate, List.append_eq_nil] at hv
    tauto
  rw [validateWaitTimeout, htail, if_pos rfl] at hwtv
  by_cases hwt : opts.waitTimeout = ""
  · simp [hwt] at hwtv
  · refine ⟨hwt, ?_⟩
    rw [if_neg hwt] at hwtv
    cases hp : V.parseDuration opts.waitTimeout with
    | none => rw [hp] at hwtv; simp at hwtv
    | some n => exact ⟨n, rfl, fun d => by simp [execRaceCall, hp]⟩

/-- Witness for claim C8 at concrete options that pass validation. -/
theorem claim_C8_witness :
    baseOpts.Validate ctx0 testV = [] ∧ baseOpts.tail = true ∧
    (baseOpts.waitTimeout ≠ "" ∧
      ∃ n, testV.parseDuration baseOpts.waitTimeout = some n ∧
        ∀ d, (execRaceCall baseOpts testV d).timeout = n) :=
  ⟨rfl, rfl, claim_C8_validated_wait_timeout_parses baseOpts ctx0 testV rfl rfl⟩

/-- Claim C9: without dry run, a failing remote `Create` call makes `Exec`
return that error at once — no line is printed and the race is never started. -/
theorem claim_C9_create_failure_returns_immediately
    (opts : DeployerCreateOptions) (ctx : GoContext) (V : Validators)
    (env : ExecEnv) (e : GoError)
    (hdry : opts.dryRun = false)
    (hc : env.create (opts.buildDeployer ctx) = Except.error e) :
    (opts.Exec ctx V env).ret = some e ∧
    (opts.Exec ctx V env).msgs = [] ∧
    (opts.Exec ctx V env).raceCalls = [] := by
  simp [DeployerCreateOptions.Exec, hdry, hc]

/-- Witness for claim C9 at a concrete invocation whose `Create` fails. -/
theorem claim_C9_witness :
    (baseOpts.Exec ctx0 testV envCreateFails).ret = some (GoError.other "create failed") ∧
    (baseOpts.Exec ctx0 testV envCreateFails).msgs = [] ∧
    (baseOpts.Exec ctx0 testV envCreateFails).raceCalls = [] :=
  claim_C9_create_failure_returns_immediately baseOpts ctx0 testV envCreateFails
    (GoError.other "create failed") rfl rfl

/-- Claim C10: with dry run, `Exec` makes no remote `Create` call and only
renders the constructed deployer; and for options that passed `Validate`,
`Tail` is false on this path, so the race and its two collaborator operations
are never invoked. -/
theorem claim_C10_dry_run_makes_no_remote_calls
    (opts : DeployerCreateOptions) (ctx : GoContext) (V : Validators)
    (env : ExecEnv)
    (hdry : opts.dryRun = true) :
    (opts.Exec ctx V env).createCalls = [] ∧
    (opts.Exec ctx V env).dryRuns = [opts.buildDeployer ctx] ∧
    (opts.Validate ctx V = [] →
      opts.tail = false ∧ (opts.Exec ctx V env).raceCalls = []) := by
  have hexec : opts.Exec ctx V env =
      execTailPhase opts V env (opts.buildDeployer ctx) [opts.buildDeployer ctx] [] := by
    simp [DeployerCreateOptions.Exec, hdry]
  refine ⟨?_, ?_, ?_⟩
  · rw [hexec]
    exact tailPhase_createCalls opts V env _ _ _
  · rw [hexec]
    exact tailPhase_dryRuns opts V env _ _ _
  · intro hv
    have hdrt : validateDryRunTail opts = [] := by
      simp only [DeployerCreateOptions.Validate, List.append_eq_nil] at hv
      tauto
    have htail : opts.tail = false := by
      by_contra ht
      rw [Bool.not_eq_false] at ht
      simp [validateDryRunTail, hdry, ht] at hdrt
    refine ⟨htail, ?_⟩
    rw [hexec, tailPhase_noTail opts V env _ _ _ htail]

/-- Claim C7 as stated is false: at this concrete timed-out invocation the
status-check informational line is among the emitted messages, yet it is not
parameterized by the resource name "zzz" — the name does not occur in its
text, because the source's status hint interpolates only the CLI name, the
namespace flag and the namespace. -/
theorem claim_C7_counterexample :
    Msg.viewStatusHint "riff" "default" ∈ (baseOpts.Exec ctx0 testV envTimedOut).msgs ∧
    ¬ occursStr baseOpts.name (Msg.viewStatusHint "riff" "default").render := by
  constructor
  · rw [show (baseOpts.Exec ctx0 testV envTimedOut).msgs =
      [Msg.createdDeployer "zzz", Msg.waitingForReady "zzz", Msg.timeoutErr "10m" "zzz",
       Msg.viewStatusHint "riff" "default", Msg.watchLogsHint "riff" "zzz" "default"] from rfl]
    simp
  · rintro ⟨a, b, h⟩
    have hc := congrArg (List.count 'z') h
    rw [List.count_append, List.count_append] at hc
    have h1 : List.count 'z' (Msg.viewStatusHint "riff" "default").render.data = 0 := by decide
    have h2 : List.count 'z' baseOpts.name.data = 3 := by decide
    rw [h1, h2] at hc
    omega

/-- Claim C7 (amended: the status-check hint carries the namespace but not the
resource name): on the timeout path `Exec` emits exactly three further lines —
the error line parameterized by the wait duration and the resource name, the
status-check hint parameterized by the namespace, and the log-resume hint
parameterized by the resource name and the namespace — each a single line
whenever the interpolated values are newline-free. -/
theorem claim_C7_timeout_message_shape
    (opts : DeployerCreateOptions) (ctx : GoContext) (V : Validators)
    (env : ExecEnv) (d : Deployer)
    (htail : opts.tail = true) (hreach : ReachesWait opts ctx env d)
    (hrace : env.raceResult (execRaceCall opts V d) = some GoError.deadlineExceeded)
    (hn : ¬ '\n' ∈ opts.name.data) (hns : ¬ '\n' ∈ opts.ns.data)
    (hwt : ¬ '\n' ∈ opts.waitTimeout.data) (hcn : ¬ '\n' ∈ env.cliName.data) :
    TimeoutReporting opts ctx V env d := by
  unfold TimeoutReporting
  rw [exec_eq_tailPhase opts ctx V env d hreach,
    tailPhase_deadline opts V env d _ _ htail hrace]
  exact ⟨rfl, rfl, rfl, rfl,
    timeoutErr_singleLine opts.waitTimeout opts.name hwt hn,
    viewStatusHint_singleLine env.cliName opts.ns hcn hns,
    watchLogsHint_singleLine env.cliName opts.name opts.ns hcn hn hns,
    timeoutErr_has_waitTimeout opts.waitTimeout opts.name,
    timeoutErr_has_name opts.waitTimeout opts.name,
    viewStatusHint_has_ns env.cliName opts.ns,
    watchLogsHint_has_name env.cliName opts.name opts.ns,
    watchLogsHint_has_ns env.cliName opts.name opts.ns⟩

/-- Witness for the amended claim C7 at a concrete timed-out invocation. -/
theorem claim_C7_witness :
    TimeoutReporting baseOpts ctx0 testV envTimedOut (baseOpts.buildDeployer ctx0) :=
  claim_C7_timeout_message_shape baseOpts ctx0 testV envTimedOut
    (baseOpts.buildDeployer ctx0) rfl (Or.inr ⟨rfl, rfl⟩) rfl
    (by decide) (by decide) (by decide) (by decide)

/-- Witness for claim C10 at a concrete validated dry-run invocation. -/
theorem claim_C10_witness :
    (dryOpts.Exec ctx0 testV envReady).createCalls = [] ∧
    (dryOpts.Exec ctx0 testV envReady).dryRuns = [dryOpts.buildDeployer ctx0] ∧
    (dryOpts.Validate ctx0 testV = [] →
      dryOpts.tail = false ∧ (dryOpts.Exec ctx0 testV envReady).raceCalls = []) :=
  claim_C10_dry_run_makes_no_remote_calls dryOpts ctx0 testV envReady rfl

end Riff
